import Mathlib

/-!
Verification development for the deucalion polling/reconciliation engine.

The definitions below are shallow embeddings of the Rust sources:
  * `src/pagination.rs`  — the generic cursor-pagination iterator;
  * `src/aws_poller.rs`  — the error classifier, the two paginated
    requestors, and the two pollers (instances, spot prices).

The remote EC2 client is modelled as a finite script of responses (a
`PaginatedRequestor`'s observable behaviour is exactly the sequence of
values its successive `next_page` calls return).  The prometheus gauge
vector is an external collaborator of the repository and is modelled
from the spec (a family keyed by LabelSet, at most one series per
LabelSet).  Rust panics (`unwrap` of `None`) are modelled by `Option`:
a function returns `none` exactly when the original code would panic.
-/

namespace Deucalion

/-! ## Pagination (src/pagination.rs)

A `PaginatedRequestor` is modelled by the script of results its
successive `next_page` calls return: each entry is `Except.error e`
(a page-fetch failure), `Except.ok none` (no more pages) or
`Except.ok (some p)` (one fetched page).  When the script is
exhausted the requestor keeps answering `Ok None`, which is how both
concrete requestors in `aws_poller.rs` behave after exhaustion.

`IterState` bundles the requestor state (the remaining script) with
the two fields of `PaginatedIterator`: the buffered `current_page`
and the caller-owned out-of-band `error` slot. -/

/-- One `next_page` answer of a requestor. -/
abbrev PageResult (A E : Type) := Except E (Option (List A))

structure IterState (A E : Type) where
  script : List (PageResult A E)
  current_page : Option (List A)
  error : Option E

/-- Rust `Vec::pop`: removes and returns the last element (`none` on an
empty vector, which is left unchanged). -/
def vecPop {A : Type} (l : List A) : Option A × List A :=
  (l.getLast?, l.dropLast)

/-- `PaginatedIterator::advance_page`: fetch the next page from the
requestor; a fetched page is stored reversed, `Ok(None)` clears the
buffer, and an error is captured in the caller-owned slot (the buffer
is also cleared). -/
def advance_page {A E : Type} (s : IterState A E) : IterState A E :=
  match s.script with
  | [] => { script := [], current_page := none, error := s.error }
  | r :: rest =>
    match r with
    | .ok (some p) => { script := rest, current_page := some p.reverse, error := s.error }
    | .ok none => { script := rest, current_page := none, error := s.error }
    | .error e => { script := rest, current_page := none, error := some e }

theorem advance_page_script_le {A E : Type} (s : IterState A E) :
    (advance_page s).script.length ≤ s.script.length := by
  cases hs : s.script with
  | nil => simp [advance_page, hs]
  | cons r rest =>
    cases r with
    | error e => simp [advance_page, hs]
    | ok o => cases o with
      | none => simp [advance_page, hs]
      | some p => simp [advance_page, hs]

theorem advance_page_some_script_lt {A E : Type} (s : IterState A E) (p : List A)
    (h : (advance_page s).current_page = some p) :
    (advance_page s).script.length < s.script.length := by
  cases hs : s.script with
  | nil => simp [advance_page, hs] at h
  | cons r rest =>
    cases r with
    | error e => simp [advance_page, hs] at h
    | ok o => cases o with
      | none => simp [advance_page, hs] at h
      | some q => simp [advance_page, hs]

/-- The refill step at the top of `PaginatedIterator::next`: when the
buffer is empty, fetch the next page. -/
def refill {A E : Type} (s : IterState A E) : IterState A E :=
  if s.current_page.isNone then advance_page s else s

theorem refill_script_le {A E : Type} (s : IterState A E) :
    (refill s).script.length ≤ s.script.length := by
  unfold refill
  by_cases hn : s.current_page.isNone
  · rw [if_pos hn]; exact advance_page_script_le s
  · rw [if_neg hn]

/-- `PaginatedIterator::next` (the `Iterator` impl in
`src/pagination.rs`): refill the buffer when empty, terminate when the
requestor is exhausted or failed, pop the next record, and on an empty
buffered page advance and retry. -/
def next {A E : Type} (s : IterState A E) : Option A × IterState A E :=
  match hp : (refill s).current_page with
  | none => (none, refill s)
  | some page =>
    match vecPop page with
    | (some i, rest) => (some i, { refill s with current_page := some rest })
    | (none, _) =>
      match hc : (advance_page (refill s)).current_page with
      | some _ => next (advance_page (refill s))
      | none => (none, advance_page (refill s))
termination_by s.script.length
decreasing_by
  have h1 := advance_page_some_script_lt (refill s) _ hc
  have h2 := refill_script_le s
  omega

/-! ### A termination measure for full consumption of the iterator -/

/-- Weight of one scripted requestor answer: a fetched page weighs its
length plus one, any other answer weighs one. -/
def entryWeight {A E : Type} : PageResult A E → Nat
  | .ok (some p) => p.length + 1
  | .ok none => 1
  | .error _ => 1

def scriptWeight {A E : Type} (sc : List (PageResult A E)) : Nat :=
  (sc.map entryWeight).sum

def pageLen {A : Type} : Option (List A) → Nat
  | none => 0
  | some l => l.length

def iterMeasure {A E : Type} (s : IterState A E) : Nat :=
  2 * scriptWeight s.script + pageLen s.current_page

theorem vecPop_some {A : Type} {l l' : List A} {a : A}
    (h : vecPop l = (some a, l')) : l'.length + 1 = l.length := by
  obtain ⟨h1, h2⟩ : l.getLast? = some a ∧ l.dropLast = l' := by
    simpa [vecPop, Prod.ext_iff] using h
  cases l with
  | nil => simp at h1
  | cons x xs => subst h2; simp

theorem vecPop_fst_none {A : Type} {l l' : List A}
    (h : vecPop l = (none, l')) : l = [] := by
  obtain ⟨h1, _⟩ : l.getLast? = none ∧ l.dropLast = l' := by
    simpa [vecPop, Prod.ext_iff] using h
  cases l with
  | nil => rfl
  | cons x xs => simp [List.getLast?_eq_getLast] at h1

theorem advance_page_mu_le {A E : Type} (s : IterState A E)
    (h : pageLen s.current_page = 0) :
    iterMeasure (advance_page s) ≤ iterMeasure s := by
  unfold iterMeasure
  rw [h]
  cases hs : s.script with
  | nil => simp [advance_page, hs, pageLen]
  | cons r rest =>
    cases r with
    | error e => simp [advance_page, hs, pageLen, scriptWeight, entryWeight]
    | ok o => cases o with
      | none => simp [advance_page, hs, pageLen, scriptWeight, entryWeight]
      | some p =>
        simp [advance_page, hs, pageLen, scriptWeight, entryWeight]; omega

theorem refill_mu_le {A E : Type} (s : IterState A E) :
    iterMeasure (refill s) ≤ iterMeasure s := by
  unfold refill
  by_cases hn : s.current_page.isNone
  · rw [if_pos hn]
    refine advance_page_mu_le s ?_
    cases hcp : s.current_page with
    | none => simp [pageLen]
    | some l => rw [hcp] at hn; simp at hn
  · rw [if_neg hn]

theorem next_mu {A E : Type} (s : IterState A E) {i : A} {s' : IterState A E}
    (h : next s = (some i, s')) : iterMeasure s' < iterMeasure s := by
  suffices H : ∀ n (s : IterState A E) (i : A) (s' : IterState A E),
      s.script.length = n → next s = (some i, s') → iterMeasure s' < iterMeasure s by
    exact H _ s i s' rfl h
  clear h s i s'
  intro n
  induction n using Nat.strong_induction_on with
  | _ n ih =>
  intro s i s' hn h
  subst hn
  rw [next] at h
  split at h
  · exact absurd h.symm (by simp)
  · rename_i page hp
    split at h
    · rename_i a rest hpop
      obtain ⟨hi, hs'⟩ : some a = some i ∧ _ = s' := by
        simpa [Prod.ext_iff] using h
      subst hs'
      have hlen := vecPop_some hpop
      have hmu : iterMeasure { refill s with current_page := some rest } <
          iterMeasure (refill s) := by
        unfold iterMeasure
        simp only [hp, pageLen]
        omega
      exact lt_of_lt_of_le hmu (refill_mu_le s)
    · rename_i rest hpop
      have hpage : page = [] := vecPop_fst_none hpop
      split at h
      · rename_i q hq
        have hscript : (advance_page (refill s)).script.length < s.script.length := by
          have h1 := advance_page_some_script_lt (refill s) _ hq
          have h2 := refill_script_le s
          omega
        have hrec := ih _ hscript _ _ _ rfl h
        have hmu1 : iterMeasure (advance_page (refill s)) ≤ iterMeasure (refill s) := by
          refine advance_page_mu_le _ ?_
          rw [hp, hpage]; simp [pageLen]
        exact lt_of_lt_of_le hrec (le_trans hmu1 (refill_mu_le s))
      · exact absurd h.symm (by simp)

/-- Full consumption of the iterator, as performed by the `for` loops in
`AwsInstancesPoller::poll` and `AwsSpotPricesPoller::poll`: call `next`
until it yields `None`, collecting the records in order; the final
state carries the caller-owned error slot. -/
def drain {A E : Type} (s : IterState A E) : List A × IterState A E :=
  match h : next s with
  | (none, t) => ([], t)
  | (some i, t) =>
    let r := drain t
    (i :: r.1, r.2)
termination_by iterMeasure s
decreasing_by exact next_mu s h

theorem drain_of_next_none {A E : Type} {s t : IterState A E}
    (h : next s = (none, t)) : drain s = ([], t) := by
  rw [drain, h]

theorem drain_of_next_some {A E : Type} {s t : IterState A E} {i : A}
    (h : next s = (some i, t)) :
    drain s = (i :: (drain t).1, (drain t).2) := by
  rw [drain, h]

theorem drain_congr {A E : Type} {s s' : IterState A E}
    (h : next s = next s') : drain s = drain s' := by
  conv_lhs => rw [drain]
  conv_rhs => rw [drain]
  rw [h]

/-! ### Stepping lemmas for `next` -/

/-- `advance_page` does not read the buffered page. -/
theorem advance_page_cp {A E : Type} (sc : List (PageResult A E))
    (cp cp' : Option (List A)) (e : Option E) :
    advance_page ⟨sc, cp, e⟩ = advance_page ⟨sc, cp', e⟩ := rfl

theorem vecPop_concat {A : Type} (l : List A) (a : A) :
    vecPop (l ++ [a]) = (some a, l) := by
  simp [vecPop]

/-- Popping a non-empty buffered page yields the record that was at the
front of the page as fetched. -/
theorem next_pop {A E : Type} (sc : List (PageResult A E)) (a : A) (l : List A)
    (e : Option E) :
    next ⟨sc, some ((a :: l).reverse), e⟩ = (some a, ⟨sc, some l.reverse, e⟩) := by
  rw [next]
  simp [refill, List.reverse_cons, vecPop_concat]

/-- A scripted page is fetched into the buffer (reversed). -/
theorem next_fetch {A E : Type} (p : List A) (rest : List (PageResult A E))
    (e : Option E) :
    next (⟨.ok (some p) :: rest, none, e⟩ : IterState A E) =
      next ⟨rest, some p.reverse, e⟩ := by
  cases p with
  | cons a l =>
    rw [next_pop, next]
    simp [refill, advance_page, List.reverse_cons, vecPop_concat]
  | nil =>
    conv_lhs => rw [next]
    conv_rhs => rw [next]
    cases rest with
    | nil => simp [refill, advance_page, vecPop]
    | cons r r2 =>
      cases r with
      | error er => simp [refill, advance_page, vecPop]
      | ok o => cases o with
        | none => simp [refill, advance_page, vecPop]
        | some q => simp [refill, advance_page, vecPop]

/-- An exhausted buffered page behaves like an empty buffer. -/
theorem next_some_nil {A E : Type} (sc : List (PageResult A E)) (e : Option E) :
    next (⟨sc, some [], e⟩ : IterState A E) = next ⟨sc, none, e⟩ := by
  cases sc with
  | nil =>
    conv_lhs => rw [next]
    conv_rhs => rw [next]
    simp [refill, advance_page, vecPop]
  | cons r rest =>
    cases r with
    | error er =>
      conv_lhs => rw [next]
      conv_rhs => rw [next]
      simp [refill, advance_page, vecPop]
    | ok o => cases o with
      | none =>
        conv_lhs => rw [next]
        conv_rhs => rw [next]
        simp [refill, advance_page, vecPop]
      | some p =>
        rw [next_fetch]
        conv_lhs => rw [next]
        simp [refill, advance_page, vecPop]

/-- An `Ok(None)` answer terminates the sequence with no error. -/
theorem next_done {A E : Type} (rest : List (PageResult A E)) (e : Option E) :
    next (⟨.ok none :: rest, none, e⟩ : IterState A E) =
      (none, ⟨rest, none, e⟩) := by
  rw [next]
  simp [refill, advance_page]

/-- An `Err` answer terminates the sequence and records the error in the
caller-owned slot. -/
theorem next_err {A E : Type} (rest : List (PageResult A E)) (er : E)
    (e : Option E) :
    next (⟨.error er :: rest, none, e⟩ : IterState A E) =
      (none, ⟨rest, none, some er⟩) := by
  rw [next]
  simp [refill, advance_page]

/-- An exhausted requestor terminates the sequence. -/
theorem next_exhausted {A E : Type} (e : Option E) :
    next (⟨[], none, e⟩ : IterState A E) = (none, ⟨[], none, e⟩) := by
  rw [next]
  simp [refill, advance_page]

/-! ### Draining the iterator over a scripted requestor -/

theorem drain_some_nil {A E : Type} (sc : List (PageResult A E)) (e : Option E) :
    drain (⟨sc, some [], e⟩ : IterState A E) = drain ⟨sc, none, e⟩ :=
  drain_congr (next_some_nil sc e)

/-- Consuming one buffered page yields its records in original order. -/
theorem drain_page {A E : Type} (p : List A) (sc : List (PageResult A E))
    (e : Option E) :
    drain (⟨sc, some p.reverse, e⟩ : IterState A E) =
      (p ++ (drain ⟨sc, none, e⟩).1, (drain ⟨sc, none, e⟩).2) := by
  induction p with
  | nil => simpa [List.reverse_nil] using drain_some_nil sc e
  | cons a l ih =>
    rw [drain_of_next_some (next_pop sc a l e), ih]
    simp

/-- Draining a script that starts with `n` successful pages yields those
pages' records, in order, followed by whatever the rest of the script
produces. -/
theorem drain_pages {A E : Type} (pages : List (List A))
    (sc : List (PageResult A E)) (e : Option E) :
    drain (⟨pages.map (fun p => .ok (some p)) ++ sc, none, e⟩ : IterState A E) =
      (pages.flatten ++ (drain ⟨sc, none, e⟩).1, (drain ⟨sc, none, e⟩).2) := by
  induction pages with
  | nil => simp
  | cons p ps ih =>
    rw [List.map_cons, List.cons_append, drain_congr (next_fetch _ _ _),
      drain_page, ih]
    simp

/-- A successful full pass: pages `P1..Pn` followed by `Ok(None)` yield
exactly the concatenation of the pages and leave the error slot empty. -/
theorem drain_success {A E : Type} (pages : List (List A)) :
    drain (⟨pages.map (fun p => .ok (some p)) ++ [.ok none], none, none⟩ :
        IterState A E) =
      (pages.flatten, ⟨[], none, none⟩) := by
  rw [drain_pages, drain_of_next_none (next_done [] none)]
  simp

/-- An aborted pass: pages `P1..P(k-1)` followed by a failing fetch yield
exactly the records of the successful pages and set the error slot. -/
theorem drain_error {A E : Type} (pages : List (List A)) (er : E) :
    drain (⟨pages.map (fun p => .ok (some p)) ++ [.error er], none, none⟩ :
        IterState A E) =
      (pages.flatten, ⟨[], none, some er⟩) := by
  rw [drain_pages, drain_of_next_none (next_err [] er none)]
  simp

/-! ## Error classifier (src/aws_poller.rs)

`AwsPollerError` is the closed taxonomy from `src/aws_poller.rs`.  The
rusoto error types consumed by the two `From` impls are external; they
are modelled by their variant structure as matched in the source, with
each payload reduced to the message string the conversion reads
(`description()` of `HttpDispatchError` and `CredentialsError` is their
message). -/

/-- Rust `str::contains` on `List Char`: prefix test helper. -/
def charsStart : List Char → List Char → Bool
  | [], _ => true
  | _ :: _, [] => false
  | a :: as, b :: bs => a == b && charsStart as bs

/-- Rust `str::contains` on `List Char`: substring test. -/
def charsContain (needle : List Char) : List Char → Bool
  | [] => charsStart needle []
  | b :: bs => charsStart needle (b :: bs) || charsContain needle bs

/-- Rust `String::contains(pat)`: substring containment. -/
def strContains (s pat : String) : Bool :=
  charsContain pat.data s.data

inductive AwsPollerError
  | InvalidCredentials (msg : String)
  | InsufficientPermissions (msg : String)
  | BadRegion (msg : String)
  | NetworkError (msg : String)
  | UnknownError (msg : String)
  | NoError
  deriving DecidableEq

/-- `rusoto::ec2::DescribeInstancesError` (external), by variant,
with each payload reduced to its message string. -/
inductive DescribeInstancesError
  | HttpDispatch (msg : String)
  | Credentials (msg : String)
  | Validation (s : String)
  | Unknown (s : String)
  deriving DecidableEq

/-- `rusoto::ec2::DescribeSpotPriceHistoryError` (external), by variant,
with each payload reduced to its message string. -/
inductive DescribeSpotPriceHistoryError
  | HttpDispatch (msg : String)
  | Credentials (msg : String)
  | Validation (s : String)
  | Unknown (s : String)
  deriving DecidableEq

/-- `impl From<HttpDispatchError> for AwsPollerError`. -/
def ofHttpDispatch (msg : String) : AwsPollerError :=
  .NetworkError msg

/-- `impl From<CredentialsError> for AwsPollerError`. -/
def ofCredentials (msg : String) : AwsPollerError :=
  .InvalidCredentials msg

/-- `impl From<ec2::DescribeInstancesError> for AwsPollerError`
(src/aws_poller.rs, lines 62-81). -/
def ofDescribeInstancesError : DescribeInstancesError → AwsPollerError
  | .HttpDispatch m => ofHttpDispatch m
  | .Credentials m => ofCredentials m
  | .Validation s => .InvalidCredentials s
  | .Unknown s =>
    if strContains s "DryRunOperation" then .NoError
    else if strContains s "UnauthorizedOperation" then
      .InsufficientPermissions "DescribeInstances"
    else if strContains s "AuthFailure" then .InvalidCredentials s
    else .UnknownError s

/-- `impl From<ec2::DescribeSpotPriceHistoryError> for AwsPollerError`
(src/aws_poller.rs, lines 83-103).  Note: the source really does carry
the string "DescribeInstances" here as well. -/
def ofDescribeSpotPriceHistoryError : DescribeSpotPriceHistoryError → AwsPollerError
  | .HttpDispatch m => ofHttpDispatch m
  | .Credentials m => ofCredentials m
  | .Validation s => .InvalidCredentials s
  | .Unknown s =>
    if strContains s "DryRunOperation" then .NoError
    else if strContains s "UnauthorizedOperation" then
      .InsufficientPermissions "DescribeInstances"
    else if strContains s "AuthFailure" then .InvalidCredentials s
    else .UnknownError s

/-! ## Gauge family model

The prometheus `GaugeVec` is an external collaborator of this
repository.  Modelled from the spec: a gauge family is a collection of
numeric series keyed by LabelSet (an ordered mapping from label name to
label value), with at most one series per exact LabelSet;
`get_metric_with(..).set(v)` upserts the series for a LabelSet,
`remove` deletes the series with exactly the given LabelSet, and
`collect` reads off the LabelSets currently present. -/

abbrev LabelSet := List (String × String)

structure GaugeVec where
  series : List (LabelSet × Rat)
  deriving DecidableEq

/-- `collect(..).get_metric(..).get_label(..)`: the snapshot of LabelSets
currently present in the family. -/
def collectLabelSets (g : GaugeVec) : List LabelSet :=
  g.series.map (fun p => p.1)

/-- `get_metric_with(labels)` followed by `set v`: upsert. -/
def upsertSeries (g : GaugeVec) (ls : LabelSet) (v : Rat) : GaugeVec :=
  if (g.series.find? (fun p => decide (p.1 = ls))).isSome then
    ⟨g.series.map (fun p => if p.1 = ls then (ls, v) else p)⟩
  else ⟨g.series ++ [(ls, v)]⟩

/-- `remove(labels)`: delete the series keyed by exactly this LabelSet. -/
def removeSeries (g : GaugeVec) (ls : LabelSet) : GaugeVec :=
  ⟨g.series.filter (fun p => decide (p.1 ≠ ls))⟩

/-- HashMap-style lookup of one label's value in a LabelSet. -/
def lookupLabel (key : String) (ls : LabelSet) : Option String :=
  (ls.find? (fun p => decide (p.1 = key))).map (fun p => p.2)

theorem mem_collect_upsert (g : GaugeVec) (ls m : LabelSet) (v : Rat) :
    m ∈ collectLabelSets (upsertSeries g ls v) ↔
      m ∈ collectLabelSets g ∨ m = ls := by
  unfold upsertSeries
  by_cases hf : (g.series.find? (fun p => decide (p.1 = ls))).isSome
  · rw [if_pos hf]
    have hmem : ls ∈ collectLabelSets g := by
      rw [Option.isSome_iff_exists] at hf
      obtain ⟨p, hp⟩ := hf
      have h1 := List.find?_some hp
      have h2 := List.mem_of_find?_eq_some hp
      simp only [decide_eq_true_eq] at h1
      exact h1 ▸ List.mem_map_of_mem (fun p => p.1) h2
    have hkeys : collectLabelSets
        ⟨g.series.map (fun p => if p.1 = ls then (ls, v) else p)⟩ =
        collectLabelSets g := by
      simp only [collectLabelSets, List.map_map]
      refine List.map_congr_left ?_
      intro p _
      by_cases hpe : p.1 = ls
      · simp [hpe]
      · simp [hpe]
    rw [hkeys]
    constructor
    · exact fun hm => Or.inl hm
    · rintro (hm | hm)
      · exact hm
      · exact hm ▸ hmem
  · rw [if_neg hf]
    simp [collectLabelSets]

theorem mem_collect_remove (g : GaugeVec) (ls m : LabelSet) :
    m ∈ collectLabelSets (removeSeries g ls) ↔
      m ∈ collectLabelSets g ∧ m ≠ ls := by
  unfold removeSeries collectLabelSets
  simp only [List.mem_map, List.mem_filter, decide_eq_true_eq]
  constructor
  · rintro ⟨p, ⟨hp, hne⟩, hkey⟩
    exact ⟨⟨p, hp, hkey⟩, hkey ▸ hne⟩
  · rintro ⟨⟨p, hp, hkey⟩, hne⟩
    exact ⟨p, ⟨hp, hkey ▸ hne⟩, hkey⟩

theorem series_upsert_sub (g : GaugeVec) (ls : LabelSet) (v : Rat) :
    ∀ p ∈ (upsertSeries g ls v).series, p ∈ g.series ∨ p.2 = v := by
  intro p hp
  unfold upsertSeries at hp
  by_cases hf : (g.series.find? (fun q => decide (q.1 = ls))).isSome
  · rw [if_pos hf] at hp
    simp only [List.mem_map] at hp
    obtain ⟨q, hq, hfq⟩ := hp
    by_cases hqe : q.1 = ls
    · right; rw [← hfq]; simp [hqe]
    · left; rw [← hfq]; simp [hqe]; exact hq
  · rw [if_neg hf] at hp
    simp only [List.mem_append, List.mem_singleton] at hp
    rcases hp with hp | hp
    · exact Or.inl hp
    · right; rw [hp]

/-! ## Instance records and the instances Poller (src/aws_poller.rs)

The rusoto record types are external; their fields are modelled exactly
as read by `AwsInstancesPoller::poll` (every field the code touches,
with rusoto's optionality). -/

structure Ec2Tag where
  key : Option String
  value : Option String
  deriving DecidableEq

structure Ec2Placement where
  availability_zone : Option String
  deriving DecidableEq

structure Ec2Instance where
  instance_id : Option String
  tags : Option (List Ec2Tag)
  placement : Option Ec2Placement
  platform : Option String
  instance_type : Option String
  instance_lifecycle : Option String
  deriving DecidableEq

/-- Rust `char::to_ascii_lowercase`. -/
def asciiLower (c : Char) : Char :=
  if 65 ≤ c.toNat ∧ c.toNat ≤ 90 then Char.ofNat (c.toNat + 32) else c

/-- Rust `str::eq_ignore_ascii_case`. -/
def eqIgnoreAsciiCase (a b : String) : Bool :=
  a.data.map asciiLower == b.data.map asciiLower

/-- `tags.iter().find(|&t| e.eq_ignore_ascii_case(t.key.as_ref().unwrap()))`:
scans the tags in order; evaluating the predicate on a tag with no key
panics; otherwise the find result. -/
def findTag (e : String) : List Ec2Tag → Option (Option Ec2Tag)
  | [] => some none
  | t :: ts =>
    match t.key with
    | none => none
    | some k => if eqIgnoreAsciiCase e k then some (some t) else findTag e ts

/-- The expose-tags loop of `AwsInstancesPoller::poll`: for each expose
key in declared order, the matching tag's value (whose absence panics)
or the empty string when no tag matches. -/
def exposeLabels (tags : List Ec2Tag) : List String → Option (List (String × String))
  | [] => some []
  | e :: es =>
    match findTag e tags with
    | none => none
    | some (some ft) =>
      match ft.value with
      | none => none
      | some v =>
        match exposeLabels tags es with
        | none => none
        | some rest => some ((e, v) :: rest)
    | some none =>
      match exposeLabels tags es with
      | none => none
      | some rest => some ((e, "") :: rest)

/-- The LabelSet built per record by `AwsInstancesPoller::poll`:
identity label `id` first, then the fixed dimensional labels, then the
expose tags in declared order.  `none` models a panic on a missing
required attribute. -/
def instanceLabels (expose_tags : List String) (id : String) (inst : Ec2Instance)
    (tags : List Ec2Tag) : Option LabelSet :=
  match inst.placement with
  | none => none
  | some pl =>
    match pl.availability_zone with
    | none => none
    | some az =>
      match inst.instance_type with
      | none => none
      | some ty =>
        match exposeLabels tags expose_tags with
        | none => none
        | some ex =>
          some ([("id", id), ("availability_zone", az),
            ("platform", inst.platform.getD "linux"), ("type", ty),
            ("lifecycle", inst.instance_lifecycle.getD "ondemand")] ++ ex)

/-- `current_metrics.retain(|m| m[&"id"] != id)`: the HashMap index
panics when a snapshot entry has no `id` label. -/
def retainUnseen (id : String) : List LabelSet → Option (List LabelSet)
  | [] => some []
  | m :: ms =>
    match lookupLabel "id" m with
    | none => none
    | some v =>
      match retainUnseen id ms with
      | none => none
      | some rest => some (if v ≠ id then m :: rest else rest)

/-- The body of the `for instance in di` loop in
`AwsInstancesPoller::poll`: a record with no tags field is skipped
entirely; otherwise unwrap the required attributes, mark the id as seen
by dropping it from the retained snapshot, and upsert the record's
LabelSet to 1.0. -/
def processInstance (expose_tags : List String) (st : GaugeVec × List LabelSet)
    (inst : Ec2Instance) : Option (GaugeVec × List LabelSet) :=
  match inst.tags with
  | none => some st
  | some tags =>
    match inst.instance_id with
    | none => none
    | some id =>
      match instanceLabels expose_tags id inst tags with
      | none => none
      | some labels =>
        match retainUnseen id st.2 with
        | none => none
        | some cm => some (upsertSeries st.1 labels 1, cm)

/-- The Commit loop of `AwsInstancesPoller::poll`: delete every
still-retained snapshot LabelSet from the gauge family (the logging of
`labels["id"]` panics when that label is absent). -/
def commitRemove (g : GaugeVec) : List LabelSet → Option GaugeVec
  | [] => some g
  | m :: ms =>
    match lookupLabel "id" m with
    | none => none
    | some _ => commitRemove (removeSeries g m) ms

/-- `AwsInstancesPoller::poll` after the fetch: reconcile the drained
records against the snapshot, then Commit (delete stale series) only
when the caller-owned error slot is empty. -/
def pollAfterFetch (expose_tags : List String) (g : GaugeVec)
    (res : List Ec2Instance × IterState Ec2Instance DescribeInstancesError) :
    Option GaugeVec :=
  match res.1.foldlM (processInstance expose_tags) (g, collectLabelSets g) with
  | none => none
  | some (g1, cm1) =>
    if (res.2.error).isSome then some g1
    else commitRemove g1 cm1

/-- `AwsInstancesPoller::poll` (src/aws_poller.rs, lines 218-273), over
a scripted requestor: Snapshot, Fetch (drain the paginated iterator),
Reconcile, then Commit or Abort. -/
def pollInstances (expose_tags : List String) (g : GaugeVec)
    (script : List (PageResult Ec2Instance DescribeInstancesError)) :
    Option GaugeVec :=
  pollAfterFetch expose_tags g (drain ⟨script, none, none⟩)

/-- The LabelSet a record contributes: `none` when the record has no
tags field (skipped) or when building its labels would panic. -/
def recordLabels (expose_tags : List String) (r : Ec2Instance) : Option LabelSet :=
  match r.tags with
  | none => none
  | some tags =>
    match r.instance_id with
    | none => none
    | some id => instanceLabels expose_tags id r tags

/-- All LabelSets contributed by a record list. -/
def builtLabelSets (expose_tags : List String) (records : List Ec2Instance) :
    List LabelSet :=
  records.filterMap (recordLabels expose_tags)

/-- The ids observed on records carrying a tags field. -/
def seenIds (records : List Ec2Instance) : List String :=
  records.filterMap (fun r =>
    match r.tags with
    | some _ => r.instance_id
    | none => none)

/-- A requestor script of pages `P1..Pn` followed by `Ok(None)`. -/
def successScript {A E : Type} (pages : List (List A)) : List (PageResult A E) :=
  pages.map (fun p => .ok (some p)) ++ [.ok none]

/-- A requestor script of pages `P1..P(k-1)` followed by a failing fetch. -/
def errorScript {A E : Type} (pages : List (List A)) (er : E) :
    List (PageResult A E) :=
  pages.map (fun p => .ok (some p)) ++ [.error er]

/-! ## Spot prices Poller (src/aws_poller.rs, lines 389-422) -/

structure SpotPrice where
  availability_zone : Option String
  product_description : Option String
  instance_type : Option String
  deriving DecidableEq

/-- `AwsSpotPricesPoller::product_to_platform`. -/
def product_to_platform (product : String) : Option String :=
  if product = "Linux/UNIX" then some "linux"
  else if product = "Windows" then some "windows"
  else none

/-- The body of the `for sp in spot_prices_iterator` loop in
`AwsSpotPricesPoller::poll`: unwrap the three attributes (panic on
`None`) and upsert the series to 1.0. -/
def processSpotPrice (g : GaugeVec) (sp : SpotPrice) : Option GaugeVec :=
  match sp.availability_zone with
  | none => none
  | some az =>
    match sp.product_description with
    | none => none
    | some pd =>
      match sp.instance_type with
      | none => none
      | some ty =>
        some (upsertSeries g [("availability_zone", az),
          ("platform", (product_to_platform pd).getD ""), ("type", ty)] 1)

/-- `AwsSpotPricesPoller::poll`: drain the iterator and upsert per
record; there is no snapshot, no Commit and no deletion step, and the
error slot is never consulted. -/
def pollSpotPrices (g : GaugeVec)
    (script : List (PageResult SpotPrice DescribeSpotPriceHistoryError)) :
    Option GaugeVec :=
  ((drain ⟨script, none, none⟩).1).foldlM processSpotPrice g

/-! ## The two concrete requestors (src/aws_poller.rs)

The remote EC2 client is modelled as a function from the call index to
the wire response; `calls` counts the remote fetches actually
performed, so "performs no further remote fetch" is observable. -/

structure Ec2Reservation where
  instances : Option (List Ec2Instance)
  deriving DecidableEq

structure DescribeInstancesResponse where
  reservations : Option (List Ec2Reservation)
  next_token : Option String
  deriving DecidableEq

/-- `DescribeInstancesRequestor` (src/aws_poller.rs, lines 280-325):
the client plus the request's carried continuation cursor and the
first-chunk flag. -/
structure InstancesRequestor where
  client : Nat → Except DescribeInstancesError DescribeInstancesResponse
  next_token : Option String
  first_chunk : Bool
  calls : Nat

/-- `DescribeInstancesRequestor::new`. -/
def InstancesRequestor.new
    (client : Nat → Except DescribeInstancesError DescribeInstancesResponse) :
    InstancesRequestor :=
  { client := client, next_token := none, first_chunk := true, calls := 0 }

/-- The chunk assembly in `DescribeInstancesRequestor::next_page`:
concatenate the instances of every reservation. -/
def instancesChunk (resp : DescribeInstancesResponse) : List Ec2Instance :=
  match resp.reservations with
  | none => []
  | some rs => rs.foldl (fun chunk r => chunk ++ r.instances.getD []) []

/-- `DescribeInstancesRequestor::next_page` (src/aws_poller.rs, lines
289-311).  Note that the fresh cursor is taken verbatim from the
response: an explicitly-empty cursor string is NOT normalized here. -/
def InstancesRequestor.next_page (s : InstancesRequestor) :
    Except DescribeInstancesError (Option (List Ec2Instance)) × InstancesRequestor :=
  if s.next_token = none ∧ s.first_chunk = false then (.ok none, s)
  else
    match s.client s.calls with
    | .ok resp =>
      (.ok (some (instancesChunk resp)),
        { s with first_chunk := false, next_token := resp.next_token,
                 calls := s.calls + 1 })
    | .error e => (.error e, { s with first_chunk := false, calls := s.calls + 1 })

structure DescribeSpotPriceHistoryResponse where
  spot_price_history : Option (List SpotPrice)
  next_token : Option String
  deriving DecidableEq

/-- `DescribeSpotPricesRequestor` (src/aws_poller.rs, lines 424-475). -/
structure SpotPricesRequestor where
  client : Nat → Except DescribeSpotPriceHistoryError DescribeSpotPriceHistoryResponse
  next_token : Option String
  first_chunk : Bool
  calls : Nat

/-- `DescribeSpotPricesRequestor::new`. -/
def SpotPricesRequestor.new
    (client : Nat → Except DescribeSpotPriceHistoryError DescribeSpotPriceHistoryResponse) :
    SpotPricesRequestor :=
  { client := client, next_token := none, first_chunk := true, calls := 0 }

/-- `DescribeSpotPricesRequestor::next_page` (src/aws_poller.rs, lines
433-455): an explicitly-empty cursor string in the response is
normalized to "no more pages". -/
def SpotPricesRequestor.next_page (s : SpotPricesRequestor) :
    Except DescribeSpotPriceHistoryError (Option (List SpotPrice)) × SpotPricesRequestor :=
  if s.next_token = none ∧ s.first_chunk = false then (.ok none, s)
  else
    match s.client s.calls with
    | .ok resp =>
      (.ok resp.spot_price_history,
        { s with first_chunk := false,
                 next_token :=
                   match resp.next_token with
                   | some t => if t = "" then none else some t
                   | none => none,
                 calls := s.calls + 1 })
    | .error e => (.error e, { s with first_chunk := false, calls := s.calls + 1 })

/-! ## Invariants of the reconciliation pass -/

theorem retainUnseen_mem {id : String} : ∀ {cm cm' : List LabelSet},
    retainUnseen id cm = some cm' →
    ∀ m, m ∈ cm' ↔ m ∈ cm ∧ lookupLabel "id" m ≠ some id := by
  intro cm
  induction cm with
  | nil =>
    intro cm' h m
    simp only [retainUnseen, Option.some_inj] at h
    subst h; simp
  | cons x xs ih =>
    intro cm' h m
    simp only [retainUnseen] at h
    cases hl : lookupLabel "id" x with
    | none => rw [hl] at h; exact absurd h (by simp)
    | some v =>
      rw [hl] at h
      cases hr : retainUnseen id xs with
      | none => rw [hr] at h; exact absurd h (by simp)
      | some rest =>
        rw [hr] at h
        simp only [Option.some_inj] at h
        subst h
        by_cases hv : v = id
        · rw [if_neg (by simp [hv])]
          rw [ih hr m]
          constructor
          · rintro ⟨hm, hne⟩; exact ⟨List.mem_cons_of_mem _ hm, hne⟩
          · rintro ⟨hm, hne⟩
            rcases List.mem_cons.mp hm with hm | hm
            · subst hm; rw [hl, hv] at hne; simp at hne
            · exact ⟨hm, hne⟩
        · rw [if_pos (by simp [hv])]
          constructor
          · intro hm
            rcases List.mem_cons.mp hm with hm | hm
            · subst hm
              exact ⟨List.mem_cons_self _ _, by rw [hl]; simp [hv]⟩
            · obtain ⟨h1, h2⟩ := (ih hr m).mp hm
              exact ⟨List.mem_cons_of_mem _ h1, h2⟩
          · rintro ⟨hm, hne⟩
            rcases List.mem_cons.mp hm with hm | hm
            · subst hm; exact List.mem_cons_self _ _
            · exact List.mem_cons_of_mem _ ((ih hr m).mpr ⟨hm, hne⟩)

theorem processFold_spec (et : List String) :
    ∀ (records : List Ec2Instance) (g0 : GaugeVec) (cm0 : List LabelSet)
      (g1 : GaugeVec) (cm1 : List LabelSet),
      records.foldlM (processInstance et) (g0, cm0) = some (g1, cm1) →
      (∀ ls, ls ∈ collectLabelSets g1 ↔
        ls ∈ collectLabelSets g0 ∨ ls ∈ builtLabelSets et records) ∧
      (∀ m, m ∈ cm1 ↔
        m ∈ cm0 ∧ ∀ i ∈ seenIds records, lookupLabel "id" m ≠ some i) := by
  intro records
  induction records with
  | nil =>
    intro g0 cm0 g1 cm1 h
    simp only [List.foldlM_nil] at h
    obtain ⟨h1, h2⟩ : g0 = g1 ∧ cm0 = cm1 := by
      simpa [Prod.ext_iff] using h
    subst h1; subst h2
    constructor
    · intro ls; simp [builtLabelSets]
    · intro m; simp [seenIds]
  | cons r rs ih =>
    intro g0 cm0 g1 cm1 h
    rw [List.foldlM_cons] at h
    cases hp : processInstance et (g0, cm0) r with
    | none => rw [hp] at h; simp at h
    | some st1 =>
      rw [hp] at h
      simp only [Option.bind_eq_bind, Option.some_bind] at h
      cases htags : r.tags with
      | none =>
        have hst : st1 = (g0, cm0) := by
          simp only [processInstance, htags, Option.some_inj] at hp
          exact hp.symm
        subst hst
        obtain ⟨iha, ihb⟩ := ih _ _ _ _ h
        constructor
        · intro ls
          rw [iha ls]
          simp [builtLabelSets, List.filterMap_cons, recordLabels, htags]
        · intro m
          rw [ihb m]
          simp [seenIds, List.filterMap_cons, htags]
      | some tags =>
        cases hid : r.instance_id with
        | none => simp [processInstance, htags, hid] at hp
        | some id =>
          cases hlab : instanceLabels et id r tags with
          | none => simp [processInstance, htags, hid, hlab] at hp
          | some labels =>
            cases hret : retainUnseen id cm0 with
            | none => simp [processInstance, htags, hid, hlab, hret] at hp
            | some cmr =>
              have hst : st1 = (upsertSeries g0 labels 1, cmr) := by
                simp only [processInstance, htags, hid, hlab, hret,
                  Option.some_inj] at hp
                exact hp.symm
              subst hst
              obtain ⟨iha, ihb⟩ := ih _ _ _ _ h
              have hbuilt : builtLabelSets et (r :: rs) =
                  labels :: builtLabelSets et rs := by
                simp [builtLabelSets, List.filterMap_cons, recordLabels,
                  htags, hid, hlab]
              have hseen : seenIds (r :: rs) = id :: seenIds rs := by
                simp [seenIds, List.filterMap_cons, htags, hid]
              constructor
              · intro ls
                rw [iha ls, mem_collect_upsert, hbuilt]
                simp only [List.mem_cons]
                tauto
              · intro m
                rw [ihb m, retainUnseen_mem hret m, hseen]
                simp only [List.forall_mem_cons]
                tauto

theorem commitRemove_spec : ∀ (cms : List LabelSet) (g g' : GaugeVec),
    commitRemove g cms = some g' →
    ∀ ls, ls ∈ collectLabelSets g' ↔ ls ∈ collectLabelSets g ∧ ls ∉ cms := by
  intro cms
  induction cms with
  | nil =>
    intro g g' h ls
    simp only [commitRemove, Option.some_inj] at h
    subst h; simp
  | cons m ms ih =>
    intro g g' h ls
    simp only [commitRemove] at h
    cases hl : lookupLabel "id" m with
    | none => rw [hl] at h; exact absurd h (by simp)
    | some v =>
      rw [hl] at h
      rw [ih _ _ h ls, mem_collect_remove]
      simp only [List.mem_cons]
      tauto

instance {E A : Type} [DecidableEq E] [DecidableEq A] : DecidableEq (Except E A) :=
  fun x y =>
    match x, y with
    | .ok a, .ok b =>
      if h : a = b then .isTrue (by rw [h]) else .isFalse (by simp [h])
    | .ok _, .error _ => .isFalse (by simp)
    | .error _, .ok _ => .isFalse (by simp)
    | .error e, .error f =>
      if h : e = f then .isTrue (by rw [h]) else .isFalse (by simp [h])

theorem drain_successScript {A E : Type} (pages : List (List A)) :
    drain (⟨successScript pages, none, none⟩ : IterState A E) =
      (pages.flatten, ⟨[], none, none⟩) := by
  unfold successScript
  exact drain_success pages

theorem drain_errorScript {A E : Type} (pages : List (List A)) (er : E) :
    drain (⟨errorScript pages er, none, none⟩ : IterState A E) =
      (pages.flatten, ⟨[], none, some er⟩) := by
  unfold errorScript
  exact drain_error pages er

theorem pollInstances_success_run (et : List String) (g : GaugeVec)
    (pages : List (List Ec2Instance)) :
    pollInstances et g (successScript pages) =
      pollAfterFetch et g (pages.flatten, ⟨[], none, none⟩) := by
  unfold pollInstances
  rw [drain_successScript]

theorem pollInstances_error_run (et : List String) (g : GaugeVec)
    (pages : List (List Ec2Instance)) (er : DescribeInstancesError) :
    pollInstances et g (errorScript pages er) =
      pollAfterFetch et g (pages.flatten, ⟨[], none, some er⟩) := by
  unfold pollInstances
  rw [drain_errorScript]

theorem pollSpotPrices_success_run (g : GaugeVec) (pages : List (List SpotPrice)) :
    pollSpotPrices g (successScript pages) =
      (pages.flatten).foldlM processSpotPrice g := by
  unfold pollSpotPrices
  rw [drain_successScript]

/-! ## The claims -/

/-- C3: for every Requestor whose successive `next_page` calls return
pages `P1..Pn` followed by `Ok(None)`, the PaginatedIterator yields
exactly `sum(len(Pi))` records — each page pre-reversed at fetch time
and drained by `pop` in LIFO order, restoring the original within-page
and across-page order — then terminates with the requestor exhausted
and the buffer empty, and the caller-owned error slot remains empty. -/
theorem paginated_iterator_success_order {A E : Type} (pages : List (List A)) :
    drain (⟨successScript pages, none, none⟩ : IterState A E) =
      (pages.flatten, ⟨[], none, none⟩) ∧
    (pages.flatten).length = (pages.map List.length).sum ∧
    next (⟨[], none, none⟩ : IterState A E) = (none, ⟨[], none, none⟩) := by
  refine ⟨drain_successScript pages, ?_, next_exhausted none⟩
  simp [List.length_flatten]

/-- C4: if `next_page` returns `Ok` for pages `1..k-1` and `Err(e)` on
the `k`-th fetch, the PaginatedIterator yields exactly the records of
pages `1..k-1` and then terminates as if exhausted — the error is never
raised through the sequence interface, which only ever yields records —
while the caller-owned error slot is set to `e`. -/
theorem paginated_iterator_abort_error_slot {A E : Type}
    (pages : List (List A)) (er : E) :
    drain (⟨errorScript pages er, none, none⟩ : IterState A E) =
      (pages.flatten, ⟨[], none, some er⟩) ∧
    next (⟨[], none, some er⟩ : IterState A E) = (none, ⟨[], none, some er⟩) :=
  ⟨drain_errorScript pages er, next_exhausted (some er)⟩

/-- C5: both classifiers map provider errors into the closed
`AwsPollerError` taxonomy by priority on the message of an `Unknown`
error — dry-run marker first (`NoError`), then the authorization-denial
marker (`InsufficientPermissions`), then the authentication-failure
marker (`InvalidCredentials`), else `UnknownError` carrying the raw
message — and independently `HttpDispatch` maps to `NetworkError` and
`Validation` to `InvalidCredentials`; in particular a message holding
both the dry-run and the authorization markers maps to `NoError`. -/
theorem error_classifier_priority (s m : String) :
    (strContains s "DryRunOperation" = true →
      ofDescribeInstancesError (.Unknown s) = .NoError ∧
      ofDescribeSpotPriceHistoryError (.Unknown s) = .NoError) ∧
    (strContains s "DryRunOperation" = false →
      strContains s "UnauthorizedOperation" = true →
      (∃ op, ofDescribeInstancesError (.Unknown s) = .InsufficientPermissions op) ∧
      (∃ op, ofDescribeSpotPriceHistoryError (.Unknown s) = .InsufficientPermissions op)) ∧
    (strContains s "DryRunOperation" = false →
      strContains s "UnauthorizedOperation" = false →
      strContains s "AuthFailure" = true →
      ofDescribeInstancesError (.Unknown s) = .InvalidCredentials s ∧
      ofDescribeSpotPriceHistoryError (.Unknown s) = .InvalidCredentials s) ∧
    (strContains s "DryRunOperation" = false →
      strContains s "UnauthorizedOperation" = false →
      strContains s "AuthFailure" = false →
      ofDescribeInstancesError (.Unknown s) = .UnknownError s ∧
      ofDescribeSpotPriceHistoryError (.Unknown s) = .UnknownError s) ∧
    (ofDescribeInstancesError (.HttpDispatch m) = .NetworkError m ∧
      ofDescribeSpotPriceHistoryError (.HttpDispatch m) = .NetworkError m) ∧
    (ofDescribeInstancesError (.Validation m) = .InvalidCredentials m ∧
      ofDescribeSpotPriceHistoryError (.Validation m) = .InvalidCredentials m) ∧
    (strContains s "DryRunOperation" = true →
      strContains s "UnauthorizedOperation" = true →
      ofDescribeInstancesError (.Unknown s) = .NoError ∧
      ofDescribeSpotPriceHistoryError (.Unknown s) = .NoError) := by
  refine ⟨?_, ?_, ?_, ?_, ⟨rfl, rfl⟩, ⟨rfl, rfl⟩, ?_⟩
  · intro h1
    constructor <;> simp [ofDescribeInstancesError, ofDescribeSpotPriceHistoryError, h1]
  · intro h1 h2
    constructor
    · exact ⟨"DescribeInstances", by
        simp [ofDescribeInstancesError, h1, h2]⟩
    · exact ⟨"DescribeInstances", by
        simp [ofDescribeSpotPriceHistoryError, h1, h2]⟩
  · intro h1 h2 h3
    constructor <;>
      simp [ofDescribeInstancesError, ofDescribeSpotPriceHistoryError, h1, h2, h3]
  · intro h1 h2 h3
    constructor <;>
      simp [ofDescribeInstancesError, ofDescribeSpotPriceHistoryError, h1, h2, h3]
  · intro h1 h2
    constructor <;> simp [ofDescribeInstancesError, ofDescribeSpotPriceHistoryError, h1]

/-- Witness for C5 at concrete messages, discharging each hypothesis. -/
theorem error_classifier_priority_witness :
    ofDescribeInstancesError (.Unknown "a DryRunOperation flag") = .NoError ∧
    (∃ op, ofDescribeSpotPriceHistoryError (.Unknown "got UnauthorizedOperation")
      = .InsufficientPermissions op) ∧
    ofDescribeInstancesError (.Unknown "AuthFailure here")
      = .InvalidCredentials "AuthFailure here" ∧
    ofDescribeInstancesError (.Unknown "boom") = .UnknownError "boom" ∧
    ofDescribeInstancesError (.Unknown "DryRunOperation & UnauthorizedOperation")
      = .NoError := by
  refine ⟨((error_classifier_priority "a DryRunOperation flag" "m").1 (by decide)).1,
    (((error_classifier_priority "got UnauthorizedOperation" "m").2.1
      (by decide) (by decide)).2),
    (((error_classifier_priority "AuthFailure here" "m").2.2.1
      (by decide) (by decide) (by decide)).1),
    (((error_classifier_priority "boom" "m").2.2.2.1
      (by decide) (by decide) (by decide)).1),
    (((error_classifier_priority "DryRunOperation & UnauthorizedOperation" "m").2.2.2.2.2.2
      (by decide) (by decide)).1)⟩

/-- C6 (code bug): the spec requires the `InsufficientPermissions`
classification to carry the name of the denied operation, but the
`DescribeSpotPriceHistory` classifier carries the literal string
"DescribeInstances" (src/aws_poller.rs line 94) — a copy-paste of the
`DescribeInstances` classifier — instead of the spot-price-history
operation's name. -/
theorem spot_classifier_carries_wrong_operation :
    ofDescribeSpotPriceHistoryError (.Unknown "UnauthorizedOperation") =
      .InsufficientPermissions "DescribeInstances" := by decide

theorem instanceLabels_id {et : List String} {id : String} {inst : Ec2Instance}
    {tags : List Ec2Tag} {ls : LabelSet}
    (h : instanceLabels et id inst tags = some ls) :
    lookupLabel "id" ls = some id := by
  unfold instanceLabels at h
  split at h
  · exact absurd h (by simp)
  · split at h
    · exact absurd h (by simp)
    · split at h
      · exact absurd h (by simp)
      · split at h
        · exact absurd h (by simp)
        · simp only [Option.some_inj] at h
          subst h
          simp [lookupLabel]

theorem built_id {et : List String} {records : List Ec2Instance} {ls : LabelSet}
    (h : ls ∈ builtLabelSets et records) :
    ∃ i, lookupLabel "id" ls = some i ∧ i ∈ seenIds records := by
  unfold builtLabelSets at h
  rw [List.mem_filterMap] at h
  obtain ⟨r, hr, hrl⟩ := h
  unfold recordLabels at hrl
  cases htags : r.tags with
  | none => rw [htags] at hrl; exact absurd hrl (by simp)
  | some tags =>
    rw [htags] at hrl
    cases hid : r.instance_id with
    | none => rw [hid] at hrl; exact absurd hrl (by simp)
    | some id =>
      rw [hid] at hrl
      refine ⟨id, instanceLabels_id hrl, ?_⟩
      unfold seenIds
      rw [List.mem_filterMap]
      exact ⟨r, hr, by rw [htags, hid]⟩

/-- C1: in a reconciliation pass of the instances Poller over an
error-free fetch (pages followed by `Ok(None)`), when the pass runs to
completion, Commit removes from the gauge family exactly those
LabelSets of the pre-pass snapshot whose `id` label value was not
observed on any fetched record carrying a tags field, and removes
nothing else: snapshot LabelSets with a seen id survive, every LabelSet
built from a tagged record is present after the pass, and nothing
beyond the snapshot and the built LabelSets appears.  (Modelled from
the spec on the prometheus side: every snapshot LabelSet carries an
`id` label, as all LabelSets created by this Poller do.) -/
theorem instances_poll_commit_exact (et : List String) (g : GaugeVec)
    (pages : List (List Ec2Instance)) (g' : GaugeVec)
    (hids : ∀ m ∈ collectLabelSets g, (lookupLabel "id" m).isSome = true)
    (hok : pollInstances et g (successScript pages) = some g') :
    (∀ ls ∈ collectLabelSets g,
      (lookupLabel "id" ls).getD "" ∉ seenIds pages.flatten →
        ls ∉ collectLabelSets g') ∧
    (∀ ls ∈ collectLabelSets g,
      (lookupLabel "id" ls).getD "" ∈ seenIds pages.flatten →
        ls ∈ collectLabelSets g') ∧
    (∀ ls ∈ builtLabelSets et pages.flatten, ls ∈ collectLabelSets g') ∧
    (∀ ls ∈ collectLabelSets g',
      ls ∈ collectLabelSets g ∨ ls ∈ builtLabelSets et pages.flatten) := by
  rw [pollInstances_success_run] at hok
  unfold pollAfterFetch at hok
  cases hf : (pages.flatten).foldlM (processInstance et) (g, collectLabelSets g) with
  | none => rw [hf] at hok; exact absurd hok (by simp)
  | some st =>
    obtain ⟨g1, cm1⟩ := st
    rw [hf] at hok
    simp only [Option.isSome_none, Bool.false_eq_true, if_false] at hok
    obtain ⟨iva, ivb⟩ := processFold_spec et _ _ _ _ _ hf
    have cs := commitRemove_spec _ _ _ hok
    refine ⟨?_, ?_, ?_, ?_⟩
    · intro ls hls hnotseen hmem'
      obtain ⟨hg1, hcm⟩ := (cs ls).mp hmem'
      apply hcm
      rw [ivb ls]
      refine ⟨hls, fun i hi hsome => hnotseen ?_⟩
      rw [hsome]
      simpa using hi
    · intro ls hls hin
      rw [cs ls]
      refine ⟨(iva ls).mpr (Or.inl hls), ?_⟩
      intro hcm1
      obtain ⟨_, hall⟩ := (ivb ls).mp hcm1
      obtain ⟨v, hv⟩ := Option.isSome_iff_exists.mp (hids ls hls)
      refine hall v ?_ hv
      rw [hv] at hin
      simpa using hin
    · intro ls hls
      rw [cs ls]
      refine ⟨(iva ls).mpr (Or.inr hls), ?_⟩
      intro hcm1
      obtain ⟨_, hall⟩ := (ivb ls).mp hcm1
      obtain ⟨i, hsome, hiseen⟩ := built_id hls
      exact hall i hiseen hsome
    · intro ls hls
      obtain ⟨hg1, _⟩ := (cs ls).mp hls
      exact (iva ls).mp hg1

/-- C2: in a reconciliation pass of the instances Poller whose fetch
recorded a page-fetch error, no series is removed from the gauge
family: every pre-pass LabelSet is still present after the pass, and
the post-pass family is exactly the pre-pass family plus the upserts
already applied for successfully-fetched pages — a partial pass can
grow the gauge family but never shrinks it. -/
theorem instances_poll_abort_no_shrink (et : List String) (g : GaugeVec)
    (pages : List (List Ec2Instance)) (er : DescribeInstancesError) (g' : GaugeVec)
    (hok : pollInstances et g (errorScript pages er) = some g') :
    (∀ ls ∈ collectLabelSets g, ls ∈ collectLabelSets g') ∧
    (∀ ls ∈ collectLabelSets g',
      ls ∈ collectLabelSets g ∨ ls ∈ builtLabelSets et pages.flatten) := by
  rw [pollInstances_error_run] at hok
  unfold pollAfterFetch at hok
  cases hf : (pages.flatten).foldlM (processInstance et) (g, collectLabelSets g) with
  | none => rw [hf] at hok; exact absurd hok (by simp)
  | some st =>
    obtain ⟨g1, cm1⟩ := st
    rw [hf] at hok
    simp only [Option.isSome_some, if_true, Option.some_inj] at hok
    subst hok
    obtain ⟨iva, _⟩ := processFold_spec et _ _ _ _ _ hf
    exact ⟨fun ls hls => (iva ls).mpr (Or.inl hls), fun ls hls => (iva ls).mp hls⟩

/-- Witness for C1 at the spec's example: snapshot ids `{A,B,C}`, a
successful fetch observing only `{A,C}`.  The stale series `B` is gone,
the surviving snapshot series `A` remains. -/
theorem instances_poll_commit_exact_witness :
    (∀ m ∈ collectLabelSets ⟨[([("id", "A")], 1), ([("id", "B")], 1),
        ([("id", "C")], 1)]⟩, (lookupLabel "id" m).isSome = true) ∧
    pollInstances [] ⟨[([("id", "A")], 1), ([("id", "B")], 1), ([("id", "C")], 1)]⟩
        (successScript [[⟨some "A", some [], some ⟨some "az"⟩, none, some "t", none⟩,
          ⟨some "C", some [], some ⟨some "az"⟩, none, some "t", none⟩]]) =
      some ⟨[([("id", "A")], 1), ([("id", "C")], 1),
        ([("id", "A"), ("availability_zone", "az"), ("platform", "linux"),
          ("type", "t"), ("lifecycle", "ondemand")], 1),
        ([("id", "C"), ("availability_zone", "az"), ("platform", "linux"),
          ("type", "t"), ("lifecycle", "ondemand")], 1)]⟩ ∧
    [("id", "B")] ∉ collectLabelSets
      (⟨[([("id", "A")], 1), ([("id", "C")], 1),
        ([("id", "A"), ("availability_zone", "az"), ("platform", "linux"),
          ("type", "t"), ("lifecycle", "ondemand")], 1),
        ([("id", "C"), ("availability_zone", "az"), ("platform", "linux"),
          ("type", "t"), ("lifecycle", "ondemand")], 1)]⟩ : GaugeVec) ∧
    [("id", "A")] ∈ collectLabelSets
      (⟨[([("id", "A")], 1), ([("id", "C")], 1),
        ([("id", "A"), ("availability_zone", "az"), ("platform", "linux"),
          ("type", "t"), ("lifecycle", "ondemand")], 1),
        ([("id", "C"), ("availability_zone", "az"), ("platform", "linux"),
          ("type", "t"), ("lifecycle", "ondemand")], 1)]⟩ : GaugeVec) := by
  have hids : ∀ m ∈ collectLabelSets (⟨[([("id", "A")], 1), ([("id", "B")], 1),
      ([("id", "C")], 1)]⟩ : GaugeVec), (lookupLabel "id" m).isSome = true := by
    decide
  have hok : pollInstances [] ⟨[([("id", "A")], 1), ([("id", "B")], 1),
      ([("id", "C")], 1)]⟩
      (successScript [[⟨some "A", some [], some ⟨some "az"⟩, none, some "t", none⟩,
        ⟨some "C", some [], some ⟨some "az"⟩, none, some "t", none⟩]]) =
      some ⟨[([("id", "A")], 1), ([("id", "C")], 1),
        ([("id", "A"), ("availability_zone", "az"), ("platform", "linux"),
          ("type", "t"), ("lifecycle", "ondemand")], 1),
        ([("id", "C"), ("availability_zone", "az"), ("platform", "linux"),
          ("type", "t"), ("lifecycle", "ondemand")], 1)]⟩ := by
    rw [pollInstances_success_run]
    decide
  have main := instances_poll_commit_exact [] _ _ _ hids hok
  exact ⟨hids, hok, main.1 [("id", "B")] (by decide) (by decide),
    main.2.1 [("id", "A")] (by decide) (by decide)⟩

/-- Witness for C2: a pass that fails on its very first fetch leaves
the single pre-existing series untouched. -/
theorem instances_poll_abort_no_shrink_witness :
    pollInstances [] ⟨[([("id", "A")], 1)]⟩
        (errorScript [] (.HttpDispatch "dispatch failed")) =
      some ⟨[([("id", "A")], 1)]⟩ ∧
    [("id", "A")] ∈ collectLabelSets (⟨[([("id", "A")], 1)]⟩ : GaugeVec) := by
  have hok : pollInstances [] ⟨[([("id", "A")], 1)]⟩
      (errorScript [] (.HttpDispatch "dispatch failed")) =
      some ⟨[([("id", "A")], 1)]⟩ := by
    rw [pollInstances_error_run]
    decide
  exact ⟨hok, (instances_poll_abort_no_shrink [] _ [] _ _ hok).1
    [("id", "A")] (by decide)⟩

theorem spotFold_spec : ∀ (records : List SpotPrice) (g g' : GaugeVec),
    records.foldlM processSpotPrice g = some g' →
    (∀ ls ∈ collectLabelSets g, ls ∈ collectLabelSets g') ∧
    (∀ p ∈ g'.series, p ∈ g.series ∨ p.2 = 1) := by
  intro records
  induction records with
  | nil =>
    intro g g' h
    obtain h' : g = g' := by simpa using h
    subst h'
    exact ⟨fun ls hls => hls, fun p hp => Or.inl hp⟩
  | cons sp rs ih =>
    intro g g' h
    rw [List.foldlM_cons] at h
    cases hp : processSpotPrice g sp with
    | none => rw [hp] at h; simp at h
    | some g1 =>
      rw [hp] at h
      simp only [Option.bind_eq_bind, Option.some_bind] at h
      obtain ⟨iha, ihb⟩ := ih _ _ h
      obtain ⟨ls, hg1⟩ : ∃ ls, g1 = upsertSeries g ls 1 := by
        unfold processSpotPrice at hp
        split at hp
        · exact absurd hp (by simp)
        · split at hp
          · exact absurd hp (by simp)
          · split at hp
            · exact absurd hp (by simp)
            · exact ⟨_, by simpa using hp.symm⟩
      subst hg1
      refine ⟨fun x hx => iha x ((mem_collect_upsert g ls x 1).mpr (Or.inl hx)), ?_⟩
      intro p hpmem
      rcases ihb p hpmem with hmem | hval
      · exact series_upsert_sub g ls 1 p hmem
      · exact Or.inr hval

/-- C10: `AwsSpotPricesPoller::poll` never removes a series from its
spot-price gauge family: it takes no snapshot and has no Commit step,
so on any pass that runs to completion — whatever the requestor script,
successful or errored — every pre-existing series is still present
afterwards, and every series was either already there or has value 1.0
from an upsert. -/
theorem spot_poll_never_shrinks (g : GaugeVec)
    (script : List (PageResult SpotPrice DescribeSpotPriceHistoryError))
    (g' : GaugeVec) (hok : pollSpotPrices g script = some g') :
    (∀ ls ∈ collectLabelSets g, ls ∈ collectLabelSets g') ∧
    (∀ p ∈ g'.series, p ∈ g.series ∨ p.2 = 1) := by
  unfold pollSpotPrices at hok
  exact spotFold_spec _ _ _ hok

/-- Witness for C10: a pass observing one price point keeps the
pre-existing series. -/
theorem spot_poll_never_shrinks_witness :
    pollSpotPrices ⟨[([("availability_zone", "z")], 1)]⟩
        (successScript [[⟨some "az1", some "Linux/UNIX", some "t"⟩]]) =
      some ⟨[([("availability_zone", "z")], 1),
        ([("availability_zone", "az1"), ("platform", "linux"), ("type", "t")], 1)]⟩ ∧
    [("availability_zone", "z")] ∈ collectLabelSets
      (⟨[([("availability_zone", "z")], 1),
        ([("availability_zone", "az1"), ("platform", "linux"), ("type", "t")], 1)]⟩ :
        GaugeVec) := by
  have hok : pollSpotPrices ⟨[([("availability_zone", "z")], 1)]⟩
      (successScript [[⟨some "az1", some "Linux/UNIX", some "t"⟩]]) =
      some ⟨[([("availability_zone", "z")], 1),
        ([("availability_zone", "az1"), ("platform", "linux"), ("type", "t")], 1)]⟩ := by
    unfold pollSpotPrices
    rw [drain_successScript]
    decide
  exact ⟨hok, (spot_poll_never_shrinks _ _ _ hok).1
    [("availability_zone", "z")] (by decide)⟩

/-- On a tag list whose tags all carry a key, the panicking `find` of
the source coincides with a plain case-insensitive `find?`. -/
theorem findTag_wf (e : String) : ∀ (tags : List Ec2Tag),
    (∀ t ∈ tags, t.key ≠ none) →
    findTag e tags =
      some (tags.find? (fun t => eqIgnoreAsciiCase e (t.key.getD ""))) := by
  intro tags
  induction tags with
  | nil => intro _; rfl
  | cons t ts ih =>
    intro hwf
    cases hk : t.key with
    | none => exact absurd hk (hwf t (List.mem_cons_self t ts))
    | some k =>
      simp only [findTag, hk]
      by_cases hc : eqIgnoreAsciiCase e k
      · rw [if_pos hc, List.find?_cons_of_pos _ (by simp [hk, hc])]
      · rw [if_neg hc, List.find?_cons_of_neg _ (by simp [hk, hc]),
          ih (fun u hu => hwf u (List.mem_cons_of_mem _ hu))]

/-- On a tag list whose tags all carry a key and a value, the expose
loop succeeds and yields, per expose key in declared order, the
case-insensitively matching tag's value or the empty string. -/
theorem exposeLabels_wf (tags : List Ec2Tag)
    (hwf : ∀ t ∈ tags, t.key ≠ none ∧ t.value ≠ none) :
    ∀ et : List String,
    exposeLabels tags et = some (et.map (fun e =>
      (e, match tags.find? (fun t => eqIgnoreAsciiCase e (t.key.getD "")) with
          | some ft => ft.value.getD ""
          | none => ""))) := by
  intro et
  induction et with
  | nil => rfl
  | cons e es ih =>
    simp only [exposeLabels, List.map_cons]
    rw [findTag_wf e tags (fun t ht => (hwf t ht).1)]
    cases hfind : tags.find? (fun t => eqIgnoreAsciiCase e (t.key.getD "")) with
    | none =>
      rw [ih]
    | some ft =>
      have hmem := List.mem_of_find?_eq_some hfind
      cases hv : ft.value with
      | none => exact absurd hv (hwf ft hmem).2
      | some v =>
        simp only [hv]
        rw [ih]
        simp [Option.getD]

/-- C8: for every fetched instance record carrying a tags field (whose
required attributes are present, and whose tags all carry a key and a
value, so no unwrap panics), the LabelSet is built deterministically:
the identity label `id` first, then the fixed dimensional labels
(availability zone, platform, type, lifecycle), then the
caller-declared expose tags in their declared order, each expose key
matched case-insensitively against the record's tag keys, a missing
tag yielding that label with an empty-string value rather than being
omitted. -/
theorem label_construction_order (et : List String) (id : String)
    (inst : Ec2Instance) (tags : List Ec2Tag) (az ty : String)
    (hpl : inst.placement = some ⟨some az⟩)
    (hty : inst.instance_type = some ty)
    (hwf : ∀ t ∈ tags, t.key ≠ none ∧ t.value ≠ none) :
    instanceLabels et id inst tags =
      some ([("id", id), ("availability_zone", az),
        ("platform", inst.platform.getD "linux"), ("type", ty),
        ("lifecycle", inst.instance_lifecycle.getD "ondemand")] ++
        et.map (fun e =>
          (e, match tags.find? (fun t => eqIgnoreAsciiCase e (t.key.getD "")) with
              | some ft => ft.value.getD ""
              | none => ""))) := by
  unfold instanceLabels
  rw [hpl, hty, exposeLabels_wf tags hwf et]

/-- Witness for C8 at the spec's example: tags `{Team: "x"}` with
expose list `["team","owner"]` yield `team="x", owner=""`. -/
theorem label_construction_order_witness :
    (∀ t ∈ [(⟨some "Team", some "x"⟩ : Ec2Tag)], t.key ≠ none ∧ t.value ≠ none) ∧
    instanceLabels ["team", "owner"] "i"
        ⟨some "i", some [⟨some "Team", some "x"⟩], some ⟨some "az"⟩, none,
          some "m4.large", none⟩
        [⟨some "Team", some "x"⟩] =
      some [("id", "i"), ("availability_zone", "az"), ("platform", "linux"),
        ("type", "m4.large"), ("lifecycle", "ondemand"),
        ("team", "x"), ("owner", "")] := by
  have hwf : ∀ t ∈ [(⟨some "Team", some "x"⟩ : Ec2Tag)],
      t.key ≠ none ∧ t.value ≠ none := by decide
  refine ⟨hwf, ?_⟩
  rw [label_construction_order ["team", "owner"] "i" _ _ "az" "m4.large" rfl rfl hwf]
  decide

theorem instanceLabels_none_of_placement {et : List String} {id : String}
    {inst : Ec2Instance} {ts : List Ec2Tag} (h : inst.placement = none) :
    instanceLabels et id inst ts = none := by
  unfold instanceLabels
  rw [h]

theorem instanceLabels_none_of_az {et : List String} {id : String}
    {inst : Ec2Instance} {ts : List Ec2Tag} (h : inst.placement = some ⟨none⟩) :
    instanceLabels et id inst ts = none := by
  unfold instanceLabels
  rw [h]

theorem instanceLabels_none_of_ty {et : List String} {id : String}
    {inst : Ec2Instance} {ts : List Ec2Tag} (h : inst.instance_type = none) :
    instanceLabels et id inst ts = none := by
  unfold instanceLabels
  split
  · rfl
  · split
    · rfl
    · rw [h]

theorem instanceLabels_none_of_expose {et : List String} {id : String}
    {inst : Ec2Instance} {ts : List Ec2Tag} (h : exposeLabels ts et = none) :
    instanceLabels et id inst ts = none := by
  unfold instanceLabels
  split
  · rfl
  · split
    · rfl
    · split
      · rfl
      · rw [h]

theorem processInstance_none_of_labels {et : List String}
    {st : GaugeVec × List LabelSet} {inst : Ec2Instance} {ts : List Ec2Tag}
    (htags : inst.tags = some ts)
    (h : ∀ id, instanceLabels et id inst ts = none) :
    processInstance et st inst = none := by
  simp only [processInstance, htags]
  cases hid : inst.instance_id with
  | none => rfl
  | some id => simp [h]

theorem pollInstances_single_none {et : List String} {g : GaugeVec}
    {inst : Ec2Instance}
    (h : processInstance et (g, collectLabelSets g) inst = none) :
    pollInstances et g (successScript [[inst]]) = none := by
  rw [pollInstances_success_run]
  simp [pollAfterFetch, List.foldlM_cons, h]

theorem pollSpotPrices_single_none {g : GaugeVec} {sp : SpotPrice}
    (h : processSpotPrice g sp = none) :
    pollSpotPrices g (successScript [[sp]]) = none := by
  rw [pollSpotPrices_success_run]
  simp [List.foldlM_cons, h]

/-- C9 counterexample: the claim says a record one of whose tags lacks
a key or a value makes the poll panic; but with an empty expose-tags
list the tag is never examined, so a record carrying a tag with
neither key nor value is processed without panicking. -/
theorem keyless_tag_without_expose_no_panic :
    ((⟨some "i", some [⟨none, none⟩], some ⟨some "az"⟩, none, some "t", none⟩ :
        Ec2Instance).tags = some [⟨none, none⟩]) ∧
    (pollInstances [] ⟨[]⟩ (successScript
        [[⟨some "i", some [⟨none, none⟩], some ⟨some "az"⟩, none, some "t",
          none⟩]])).isSome = true := by
  refine ⟨rfl, ?_⟩
  rw [pollInstances_success_run]
  decide

/-- C9 (amended): the reconciliation step is not total: only a record
missing the entire tags field is skipped (it contributes nothing to the
pass); a record with a tags field but missing instance_id, placement,
placement.availability_zone, or instance_type makes the instances poll
panic; a tag lacking a key makes the poll panic when the expose list is
non-empty and the tag is examined (here: it is the first tag), and a
tag lacking a value makes the poll panic when it is the
case-insensitive match of some expose key; a spot-price record lacking
availability_zone, product_description, or instance_type makes the
spot-prices poll panic.  (Panic is modelled as the poll returning
`none`.) -/
theorem poll_missing_attribute_panics (et : List String) (g : GaugeVec)
    (inst : Ec2Instance) (ts : List Ec2Tag) (sp : SpotPrice)
    (e0 : String) (es : List String) (v0 : Option String) (k : String)
    (rest : List Ec2Tag) :
    (inst.tags = some ts → inst.instance_id = none →
      pollInstances et g (successScript [[inst]]) = none) ∧
    (inst.tags = some ts → inst.placement = none →
      pollInstances et g (successScript [[inst]]) = none) ∧
    (inst.tags = some ts → inst.placement = some ⟨none⟩ →
      pollInstances et g (successScript [[inst]]) = none) ∧
    (inst.tags = some ts → inst.instance_type = none →
      pollInstances et g (successScript [[inst]]) = none) ∧
    (inst.tags = some (⟨none, v0⟩ :: rest) →
      pollInstances (e0 :: es) g (successScript [[inst]]) = none) ∧
    (inst.tags = some (⟨some k, none⟩ :: rest) → eqIgnoreAsciiCase e0 k = true →
      pollInstances (e0 :: es) g (successScript [[inst]]) = none) ∧
    (inst.tags = none →
      pollInstances et g (successScript [[inst]]) =
        pollInstances et g (successScript [[]])) ∧
    (sp.availability_zone = none →
      pollSpotPrices g (successScript [[sp]]) = none) ∧
    (sp.product_description = none →
      pollSpotPrices g (successScript [[sp]]) = none) ∧
    (sp.instance_type = none →
      pollSpotPrices g (successScript [[sp]]) = none) := by
  refine ⟨?_, ?_, ?_, ?_, ?_, ?_, ?_, ?_, ?_, ?_⟩
  · intro htags hid
    refine pollInstances_single_none ?_
    simp [processInstance, htags, hid]
  · intro htags hpl
    exact pollInstances_single_none (processInstance_none_of_labels htags
      (fun id => instanceLabels_none_of_placement hpl))
  · intro htags hpl
    exact pollInstances_single_none (processInstance_none_of_labels htags
      (fun id => instanceLabels_none_of_az hpl))
  · intro htags hty
    exact pollInstances_single_none (processInstance_none_of_labels htags
      (fun id => instanceLabels_none_of_ty hty))
  · intro htags
    refine pollInstances_single_none (processInstance_none_of_labels htags
      (fun id => instanceLabels_none_of_expose ?_))
    rfl
  · intro htags heq
    refine pollInstances_single_none (processInstance_none_of_labels htags
      (fun id => instanceLabels_none_of_expose ?_))
    simp [exposeLabels, findTag, heq]
  · intro htags
    rw [pollInstances_success_run, pollInstances_success_run]
    simp [pollAfterFetch, List.foldlM_cons, List.foldlM_nil, processInstance, htags]
  · intro haz
    refine pollSpotPrices_single_none ?_
    simp [processSpotPrice, haz]
  · intro hpd
    refine pollSpotPrices_single_none ?_
    unfold processSpotPrice
    split
    · rfl
    · rw [hpd]
  · intro hty
    refine pollSpotPrices_single_none ?_
    unfold processSpotPrice
    split
    · rfl
    · split
      · rfl
      · rw [hty]

/-- Witness for C9 (amended) at concrete records: a tagged record
without an instance id panics; a keyless first tag with a non-empty
expose list panics; a spot-price record without an availability zone
panics. -/
theorem poll_missing_attribute_panics_witness :
    pollInstances [] ⟨[]⟩ (successScript
      [[⟨none, some [], some ⟨some "az"⟩, none, some "t", none⟩]]) = none ∧
    pollInstances ["team"] ⟨[]⟩ (successScript
      [[⟨some "i", some [⟨none, none⟩], some ⟨some "az"⟩, none, some "t",
        none⟩]]) = none ∧
    pollSpotPrices ⟨[]⟩ (successScript [[⟨none, some "Linux/UNIX", some "t"⟩]])
      = none := by
  refine ⟨?_, ?_, ?_⟩
  · exact (poll_missing_attribute_panics [] ⟨[]⟩
      ⟨none, some [], some ⟨some "az"⟩, none, some "t", none⟩ [] ⟨none, none, none⟩
      "e" [] none "k" []).1 rfl rfl
  · exact (poll_missing_attribute_panics [] ⟨[]⟩
      ⟨some "i", some [⟨none, none⟩], some ⟨some "az"⟩, none, some "t", none⟩ []
      ⟨none, none, none⟩ "team" [] none "k" []).2.2.2.2.1 rfl
  · exact (poll_missing_attribute_panics [] ⟨[]⟩
      ⟨none, some [], some ⟨some "az"⟩, none, some "t", none⟩ []
      ⟨none, some "Linux/UNIX", some "t"⟩ "e" [] none "k" []).2.2.2.2.2.2.2.1 rfl

/-- C7 counterexample: the claim says every Requestor normalizes an
explicitly-empty cursor string to "no more pages", but the
instance-listing requestor does not: after a page whose continuation
cursor is `Some("")`, its carried cursor is still `Some("")`, and the
following `next_page` call performs another remote fetch (the call
counter reaches 2) and returns a page instead of `Ok(None)`. -/
theorem instances_requestor_keeps_empty_cursor :
    ((InstancesRequestor.new (fun _ => .ok ⟨some [], some ""⟩)).next_page.2.next_token
      = some "") ∧
    ((InstancesRequestor.new (fun _ => .ok ⟨some [], some ""⟩)).next_page.2.next_page.1
      ≠ .ok none) ∧
    ((InstancesRequestor.new (fun _ => .ok ⟨some [], some ""⟩)).next_page.2.next_page.1
      = .ok (some [])) ∧
    ((InstancesRequestor.new (fun _ => .ok ⟨some [], some ""⟩)).next_page.2.next_page.2.calls
      = 2) := by
  refine ⟨by decide, by decide, by decide, by decide⟩

/-- C7 (amended): only the spot-price-history requestor normalizes an
explicitly-empty cursor string to "no more pages" — after a page whose
cursor is `Some("")` its carried cursor is `None`, and the following
`next_page` call performs no remote fetch and returns `Ok(None)`,
leaving the requestor unchanged; the instance-listing requestor keeps
`Some("")` as a live cursor and performs another remote fetch on the
following call. -/
theorem empty_cursor_normalization_split :
    (∀ (cli : Nat → Except DescribeSpotPriceHistoryError DescribeSpotPriceHistoryResponse)
      (sph : Option (List SpotPrice)),
      cli 0 = .ok ⟨sph, some ""⟩ →
      (SpotPricesRequestor.new cli).next_page.2.next_token = none ∧
      (SpotPricesRequestor.new cli).next_page.2.next_page =
        (.ok none, (SpotPricesRequestor.new cli).next_page.2)) ∧
    (∀ (cli : Nat → Except DescribeInstancesError DescribeInstancesResponse)
      (rsv : Option (List Ec2Reservation)),
      cli 0 = .ok ⟨rsv, some ""⟩ →
      (InstancesRequestor.new cli).next_page.2.next_token = some "" ∧
      (InstancesRequestor.new cli).next_page.2.next_page.2.calls =
        (InstancesRequestor.new cli).next_page.2.calls + 1) := by
  constructor
  · intro cli sph hcli
    have hstate : (SpotPricesRequestor.new cli).next_page.2 =
        { client := cli, next_token := none, first_chunk := false, calls := 1 } := by
      simp [SpotPricesRequestor.new, SpotPricesRequestor.next_page, hcli]
    rw [hstate]
    exact ⟨rfl, by simp [SpotPricesRequestor.next_page]⟩
  · intro cli rsv hcli
    have hstate : (InstancesRequestor.new cli).next_page.2 =
        { client := cli, next_token := some "", first_chunk := false, calls := 1 } := by
      simp [InstancesRequestor.new, InstancesRequestor.next_page, hcli]
    rw [hstate]
    refine ⟨rfl, ?_⟩
    simp [InstancesRequestor.next_page]
    cases cli 1 with
    | ok resp => simp
    | error e => simp

/-- Witness for C7 (amended) at a concrete client whose first response
carries the explicitly-empty cursor. -/
theorem empty_cursor_normalization_split_witness :
    ((SpotPricesRequestor.new
        (fun _ => .ok ⟨none, some ""⟩)).next_page.2.next_page.1 = .ok none) ∧
    ((InstancesRequestor.new
        (fun _ => .ok ⟨none, some ""⟩)).next_page.2.next_page.2.calls = 2) := by
  have h1 := (empty_cursor_normalization_split.1
    (fun _ => .ok ⟨none, some ""⟩) none rfl).2
  have h2 := (empty_cursor_normalization_split.2
    (fun _ => .ok ⟨none, some ""⟩) none rfl).2
  constructor
  · rw [h1]
  · rw [h2]; decide

end Deucalion
